import Mathlib

/-!
Shallow embedding of the MealCoach backend core — the reminder scheduling /
quiet-hours engine, the daily-log accumulation model, the remaining-needs
calculator and notification dispatch — translated from `src/server/index.js`
(the file-backed variant), together with the Firestore-backed variant
`src/functions/index.js` at the points where the two differ.  Theorems below
check the specification's claims about this code.
-/

namespace MealCoach

/-- JavaScript number restricted to the integral values arising in the
backend's time and debounce arithmetic; `nan` is the JS `NaN` value, produced
e.g. by `Number("ab")` or by arithmetic involving `undefined`. -/
inductive JSNum where
  | nan : JSNum
  | num : Int → JSNum
deriving DecidableEq

/-- JS `<`: every comparison involving `NaN` is false. -/
def JSNum.lt : JSNum → JSNum → Bool
  | .num a, .num b => decide (a < b)
  | _, _ => false

/-- JS `>`: every comparison involving `NaN` is false. -/
def JSNum.gt : JSNum → JSNum → Bool
  | .num a, .num b => decide (b < a)
  | _, _ => false

/-- JS `>=`: every comparison involving `NaN` is false. -/
def JSNum.ge : JSNum → JSNum → Bool
  | .num a, .num b => decide (b ≤ a)
  | _, _ => false

/-- JS strict equality `===` on numbers: `NaN === x` is false for every `x`,
including `NaN` itself. -/
def JSNum.seq : JSNum → JSNum → Bool
  | .num a, .num b => decide (a = b)
  | _, _ => false

/-- JS `+` on numbers: `NaN` is absorbing. -/
def JSNum.add : JSNum → JSNum → JSNum
  | .num a, .num b => .num (a + b)
  | _, _ => .nan

/-- JS `*` on numbers: `NaN` is absorbing. -/
def JSNum.mul : JSNum → JSNum → JSNum
  | .num a, .num b => .num (a * b)
  | _, _ => .nan

/-- JS `String.prototype.split` with a single-character separator, expressed on
the character list of the string: `"".split(":")` is `[""]`,
`"a:b:c".split(":")` is `["a","b","c"]`. -/
def splitOnChar (c : Char) : List Char → List (List Char)
  | [] => [[]]
  | x :: xs =>
    let r := splitOnChar c xs
    if x = c then [] :: r
    else
      match r with
      | [] => [[x]]
      | ys :: rest => (x :: ys) :: rest

/-- Decimal accumulation helper for `jsNumberChars`: consumes digits,
rejecting the string as soon as a non-digit appears. -/
def digitsToNatAux (acc : Nat) : List Char → Option Nat
  | [] => some acc
  | c :: cs => if c.isDigit then digitsToNatAux (10 * acc + (c.toNat - 48)) cs else none

/-- JS `Number(s)` on the string fragment the backend feeds it: the empty
string converts to `0`, a nonempty all-digit string to its decimal value, and
any other string (as in `Number("ab")`) to `NaN`.  Signs, fractions,
exponents, hex forms and whitespace never reach this conversion on the
embedded code paths ("HH:MM" pieces are plain digit runs). -/
def jsNumberChars : List Char → JSNum
  | [] => .num 0
  | c :: cs =>
    match digitsToNatAux 0 (c :: cs) with
    | some n => .num (Int.ofNat n)
    | none => .nan

/-- Function `timeToMinutes` from `src/server/index.js:52` (identical at
`src/functions/index.js:54`):
`const [h, m] = hhmm.split(":").map(Number); return h * 60 + m;`.
When the string has no `":"`, the destructured `m` is `undefined`, which
behaves as `NaN` under the arithmetic. -/
def timeToMinutes (hhmm : String) : JSNum :=
  let parts := splitOnChar ':' hhmm.data
  let h := jsNumberChars (parts.getD 0 [])
  let m : JSNum :=
    match parts.get? 1 with
    | some t => jsNumberChars t
    | none => .nan
  JSNum.add (JSNum.mul h (.num 60)) m

/-- The `settings.quietHours` shape: `{start, end}` as "HH:MM" strings. -/
structure QuietHours where
  start : String
  «end» : String

/-- Function `isWithinQuietHours` from `src/server/index.js:57` (identical at
`src/functions/index.js:59`).  The local `e` is the source's `end`. -/
def isWithinQuietHours (nowMinutes : Int) (quiet : QuietHours) : Bool :=
  let start := timeToMinutes quiet.start
  let e := timeToMinutes quiet.«end»
  if JSNum.seq start e then false
  else if JSNum.lt start e then
    JSNum.ge (.num nowMinutes) start && JSNum.lt (.num nowMinutes) e
  else
    JSNum.ge (.num nowMinutes) start || JSNum.lt (.num nowMinutes) e

example : timeToMinutes "13:00" = JSNum.num 780 := by decide
example : timeToMinutes "22:00" = JSNum.num 1320 := by decide
example : timeToMinutes "ab" = JSNum.nan := by decide
example : timeToMinutes "12" = JSNum.nan := by decide
example : timeToMinutes "" = JSNum.nan := by decide
example : timeToMinutes "12:xy" = JSNum.nan := by decide
example : isWithinQuietHours (23 * 60) ⟨"22:00", "07:00"⟩ = true := by decide
example : isWithinQuietHours (6 * 60) ⟨"22:00", "07:00"⟩ = true := by decide
example : isWithinQuietHours (12 * 60) ⟨"22:00", "07:00"⟩ = false := by decide

/-- A JavaScript value as it can appear in a request-supplied summary object:
a number, a string, or a boolean.  The merge in `normalizeSummary` never
inspects values, so these three constructors cover the behaviours the claims
mention (numeric, negative-numeric, and non-numeric values). -/
inductive JSVal where
  | num : Int → JSVal
  | str : String → JSVal
  | bool : Bool → JSVal
deriving DecidableEq

/-- A JS object, as an ordered association list of own enumerable keys. -/
abbrev JSObj := List (String × JSVal)

/-- JS object spread `{...a, ...b}`: keys of `a` keep their position, with
`b`'s value when `b` also has the key; keys only in `b` are appended in `b`'s
insertion order. -/
def jsMerge (a b : JSObj) : JSObj :=
  a.map (fun p => (p.1, (List.lookup p.1 b).getD p.2)) ++
    b.filter (fun p => (List.lookup p.1 a).isNone)

/-- The `base` object of `normalizeSummary` (`src/server/index.js:68`). -/
def summaryBase : JSObj :=
  [("protein_servings", .num 0), ("veg_servings", .num 0), ("carb_servings", .num 0),
    ("snack_servings", .num 0), ("water_ml", .num 0)]

/-- Function `normalizeSummary` from `src/server/index.js:67` (identical at
`src/functions/index.js:69`): `return { ...base, ...summary };`. -/
def normalizeSummary (summary : JSObj) : JSObj :=
  jsMerge summaryBase summary

/-- JS `x || 0` on an optionally-present numeric property (`consumed[key]`):
`undefined` and `0` are falsy and yield `0`; any other number is itself. -/
def jsOrZeroOpt (o : Option Int) : Int :=
  match o with
  | none => 0
  | some v => if v = 0 then 0 else v

/-- Function `calcRemaining` from `src/server/index.js:124` (identical at
`src/functions/index.js:139`): for each key of `targets`,
`remaining[key] = Math.max(0, targets[key] - (consumed[key] || 0))`. -/
def calcRemaining (targets consumed : List (String × Int)) : List (String × Int) :=
  targets.map (fun p => (p.1, max 0 (p.2 - jsOrZeroOpt (List.lookup p.1 consumed))))

/-- A NutritionSummary with its five numeric fields, the structural view of a
JS object that `normalizeSummary` has restricted to the base keys (every
consumed/entry summary the log-meal path produces has this shape). -/
structure Summary where
  protein_servings : Int
  veg_servings : Int
  carb_servings : Int
  snack_servings : Int
  water_ml : Int
deriving DecidableEq

/-- The value of `normalizeSummary({})`: all five fields zero. -/
def zeroSummary : Summary := ⟨0, 0, 0, 0, 0⟩

/-- One element of `log.entries`: `{ at, items, summary }`
(`src/server/index.js:290`). -/
structure Entry where
  «at» : String
  items : List String
  summary : Summary
deriving DecidableEq

/-- A daily log document (`src/server/index.js:83`):
`{ date, checkins, consumed, entries }`. -/
structure DayLog where
  date : String
  checkins : List (String × Bool)
  consumed : Summary
  entries : List Entry
deriving DecidableEq

/-- JS `x || 0` on a number that is known to be present: `0` is falsy and
yields `0`, any other value is itself (the identity on integers). -/
def jsOrZero (n : Int) : Int :=
  if n = 0 then 0 else n

/-- The consumed-accumulation step of `POST /api/log-meal`
(`src/server/index.js:283`): `log.consumed = normalizeSummary({ f: (log.consumed?.f || 0) + summary.f, ... })`
for each of the five fields; the outer `normalizeSummary` is the identity here
because the argument carries exactly the five base keys. -/
def addConsumed (c s : Summary) : Summary :=
  ⟨jsOrZero c.protein_servings + s.protein_servings,
    jsOrZero c.veg_servings + s.veg_servings,
    jsOrZero c.carb_servings + s.carb_servings,
    jsOrZero c.snack_servings + s.snack_servings,
    jsOrZero c.water_ml + s.water_ml⟩

/-- Handler `POST /api/log-meal` (`src/server/index.js:278`), past request parsing:
`summary` is the already-normalized delta; the handler adds it into
`log.consumed` and appends `{ at, items, summary }` to `log.entries`. -/
def logMeal (log : DayLog) (summary : Summary) (items : List String) (now : String) : DayLog :=
  { log with
    consumed := addConsumed log.consumed summary
    entries := log.entries ++ [⟨now, items, summary⟩] }

/-- JS property assignment `checkins[slotId] = true` on an association list:
replace in place when the key exists, append otherwise. -/
def setCheckin (l : List (String × Bool)) (sid : String) : List (String × Bool) :=
  if (List.lookup sid l).isSome then
    l.map (fun p => if p.1 = sid then (p.1, true) else p)
  else
    l ++ [(sid, true)]

/-- Handler `POST /api/checkin` (`src/server/index.js:241`), past request parsing:
sets `log.checkins[slotId] = true` and persists; `consumed` and `entries` are
untouched. -/
def checkin (log : DayLog) (sid : String) : DayLog :=
  { log with checkins := setCheckin log.checkins sid }

/-- The blank log `ensureLog` creates (`src/server/index.js:83`):
`{ date, checkins: {}, consumed: normalizeSummary({}), entries: [] }`. -/
def blankLog (d : String) : DayLog :=
  ⟨d, [], zeroSummary, []⟩

/-- Function `ensureLog` (`src/server/index.js:78`) over an abstract store: return the
stored log for the date when present, otherwise create and return the blank
log. -/
def ensureLog (store : String → Option DayLog) (d : String) : DayLog :=
  (store d).getD (blankLog d)

/-- Field-wise sum of two summaries. -/
def sumSummary (a b : Summary) : Summary :=
  ⟨a.protein_servings + b.protein_servings,
    a.veg_servings + b.veg_servings,
    a.carb_servings + b.carb_servings,
    a.snack_servings + b.snack_servings,
    a.water_ml + b.water_ml⟩

/-- Field-wise sum of the summaries of all entries. -/
def entriesTotal (es : List Entry) : Summary :=
  es.foldl (fun acc e => sumSummary acc e.summary) zeroSummary

/-- The daily-log invariant: `consumed` equals the field-wise sum of all
`entries[*].summary`. -/
def LogInv (log : DayLog) : Prop :=
  log.consumed = entriesTotal log.entries

/-- The settled outcome of one `webpush.sendNotification` call
(`Promise.allSettled` element): fulfilled, or rejected with an optional
numeric `statusCode` on the rejection reason. -/
inductive Outcome where
  | fulfilled : Outcome
  | rejected : Option Int → Outcome
deriving DecidableEq

/-- Whether a settled result has `status === "fulfilled"`. -/
def Outcome.ok : Outcome → Bool
  | .fulfilled => true
  | .rejected _ => false

/-- The gone/not-found classification of `src/functions/index.js:182`:
`status === 404 || status === 410` on `res.reason?.statusCode`. -/
def isGoneStatus : Outcome → Bool
  | .rejected (some s) => decide (s = 404) || decide (s = 410)
  | _ => false

/-- Function `sendPushToAll` from `src/server/index.js:140` (file-backed variant).
A subscription is represented by its endpoint string; `results` are the
positionally corresponding settled delivery outcomes.  Returns the saved-back
subscription list (`stillValid`) and the reported `sent` count.  An empty
subscription list short-circuits with `{sent: 0}` and no store write. -/
def sendPushToAll (subs : List String) (results : List Outcome) : List String × Nat :=
  if subs.isEmpty then (subs, 0)
  else
    let stillValid := ((subs.zip results).filter (fun p => Outcome.ok p.2)).map Prod.fst
    (stillValid, stillValid.length)

/-- Function `sendPushToAll` from `src/functions/index.js:168` (Firestore variant):
`sent` counts fulfilled deliveries; only subscriptions whose rejection has
`statusCode` 404 or 410 are deleted from the store, so the post-dispatch
subscription set keeps every subscription whose outcome is not gone-class. -/
def sendPushToAllFirestore (subs : List String) (results : List Outcome) : List String × Nat :=
  if subs.isEmpty then (subs, 0)
  else
    let zipped := subs.zip results
    let sent := (zipped.filter (fun p => Outcome.ok p.2)).length
    let remaining := (zipped.filter (fun p => !isGoneStatus p.2)).map Prod.fst
    (remaining, sent)

/-- A configured meal slot (`settings.meals` element):
`{id, label, time, windowMinutes}`. -/
structure Slot where
  id : String
  label : String
  time : String
  windowMinutes : Int
deriving DecidableEq

/-- The settings the nag engine reads: `intervalMinutes` (absent when the
settings document lacks it), `quietHours` and `meals`. -/
structure Settings where
  intervalMinutes : Option Int
  quietHours : QuietHours
  meals : List Slot

/-- JS `settings.intervalMinutes || 20` (`src/server/index.js:192`): `undefined`
and `0` are falsy and give the default `20`; any other number is itself. -/
def intervalOr (i : Option Int) : Int :=
  match i with
  | none => 20
  | some v => if v = 0 then 20 else v

/-- The parsed reminder payload built by `buildNagPayload`
(`src/server/index.js:132`); the source JSON-stringifies this object. -/
structure Payload where
  title : String
  body : String
  tag : String
deriving DecidableEq

/-- JS template interpolation of an optionally-present numeric property:
`undefined` prints as "undefined". -/
def showJSNumOpt (o : Option Int) : String :=
  match o with
  | none => "undefined"
  | some n => toString n

/-- Function `buildNagPayload` from `src/server/index.js:132`. -/
def buildNagPayload (slot : Slot) (remaining : List (String × Int)) : Payload :=
  { title := "Check-in: " ++ slot.label
    body := "Bitte bestaetigen. Offen: P " ++ showJSNumOpt (List.lookup "protein_servings" remaining) ++
      ", G " ++ showJSNumOpt (List.lookup "veg_servings" remaining) ++
      ", K " ++ showJSNumOpt (List.lookup "carb_servings" remaining)
    tag := "meal-" ++ slot.id }

/-- The window test of `src/server/index.js:187`:
`if (nowMinutes < slotStart || nowMinutes > slotEnd) continue;` with
`slotStart = timeToMinutes(slot.time)` and
`slotEnd = slotStart + slot.windowMinutes`.  Returns true when the slot is
skipped. -/
def slotWindowSkip (nowMinutes : Int) (slot : Slot) : Bool :=
  let slotStart := timeToMinutes slot.time
  let slotEnd := JSNum.add slotStart (.num slot.windowMinutes)
  JSNum.lt (.num nowMinutes) slotStart || JSNum.gt (.num nowMinutes) slotEnd

/-- The check-in test of `src/server/index.js:188`:
`log.checkins && log.checkins[slot.id]` — `checkins` may be absent on a
hand-written log document, and an absent key is falsy. -/
def checkedIn (checkins : Option (String → Bool)) (sid : String) : Bool :=
  match checkins with
  | none => false
  | some f => f sid

/-- The debounce test of `src/server/index.js:191`:
`const lastSent = nagState[key] || 0;` then skip when
`Date.now() - lastSent < (settings.intervalMinutes || 20) * 60 * 1000`. -/
def debounceSkip (nagState : String → Option Int) (key : String)
    (intervalMinutes : Option Int) (nowMs : Int) : Bool :=
  let lastSent := (nagState key).getD 0
  decide (nowMs - lastSent < intervalOr intervalMinutes * 60 * 1000)

/-- The debounce test of `src/functions/index.js:212`: `lastSent` is the
stored millisecond timestamp when the state document exists, else `0`, and
the skip is guarded by truthiness:
`if (lastSent && Date.now() - lastSent < interval * 60 * 1000) continue;`. -/
def debounceSkipFirestore (lastSentOpt : Option Int)
    (intervalMinutes : Option Int) (nowMs : Int) : Bool :=
  let lastSent := lastSentOpt.getD 0
  decide (lastSent ≠ 0) && decide (nowMs - lastSent < intervalOr intervalMinutes * 60 * 1000)

/-- The ambient data one `handleNagCheck` tick reads: VAPID availability, the
settings and targets documents, the wall clock (`nowMinutes` within the day,
`nowMs` since the epoch), today's date key, and today's log as the engine sees
it (`checkins` and `consumed` may each be absent on a malformed document). -/
structure NagCfg where
  vapid : Bool
  settings : Settings
  targets : List (String × Int)
  nowMinutes : Int
  nowMs : Int
  today : String
  checkins : Option (String → Bool)
  consumed : Option (List (String × Int))
  nagState : String → Option Int
  subs : List String

/-- One dispatched reminder: the slot it was built for and the payload handed
to `sendPushToAll`. -/
structure Dispatch where
  slot : Slot
  payload : Payload

/-- The mutable state threaded through one tick's slot loop: the reminders
dispatched so far, the debounce map `nagState`, the subscription store, and
the number of dispatch calls made (indexing into the transport's outcomes). -/
structure TickState where
  dispatched : List Dispatch
  nagState : String → Option Int
  subs : List String
  calls : Nat

/-- One iteration of the slot loop of `handleNagCheck`
(`src/server/index.js:184-198`): skip outside the window, skip when checked
in, skip when debounced; otherwise dispatch to all subscriptions (the
transport settles each delivery) and record `nagState[key] = Date.now()`. -/
def nagSlotStep (cfg : NagCfg) (transport : Nat → List Outcome)
    (remaining : List (String × Int)) (st : TickState) (slot : Slot) : TickState :=
  if slotWindowSkip cfg.nowMinutes slot then st
  else if checkedIn cfg.checkins slot.id then st
  else
    let key := cfg.today ++ "-" ++ slot.id
    if debounceSkip st.nagState key cfg.settings.intervalMinutes cfg.nowMs then st
    else
      let payload := buildNagPayload slot remaining
      let subs' := (sendPushToAll st.subs (transport st.calls)).1
      { dispatched := st.dispatched ++ [⟨slot, payload⟩]
        nagState := fun k => if k = key then some cfg.nowMs else st.nagState k
        subs := subs'
        calls := st.calls + 1 }

/-- Function `handleNagCheck` from `src/server/index.js:172`: abort when VAPID keys are
missing; abort when within quiet hours; otherwise compute
`remaining = calcRemaining(targets, log.consumed || {})` and run the slot loop
over `settings.meals`. -/
def handleNagCheck (cfg : NagCfg) (transport : Nat → List Outcome) : TickState :=
  let init : TickState := ⟨[], cfg.nagState, cfg.subs, 0⟩
  if !cfg.vapid then init
  else if isWithinQuietHours cfg.nowMinutes cfg.settings.quietHours then init
  else
    let remaining := calcRemaining cfg.targets (cfg.consumed.getD [])
    cfg.settings.meals.foldl (nagSlotStep cfg transport remaining) init

/-- Two-decimal-digit rendering of `n < 100`, for building well-formed
"HH:MM" inputs. -/
def twoDigitChars (n : Nat) : List Char :=
  [Char.ofNat (48 + n / 10 % 10), Char.ofNat (48 + n % 10)]

/-- A well-formed "HH:MM" string for hour `h` and minute `m`. -/
def hhmmString (h m : Nat) : String :=
  ⟨twoDigitChars h ++ ':' :: twoDigitChars m⟩

/-! ### Concrete fixtures used by witnesses -/

/-- The lunch slot of the default settings (`src/server/index.js:109`). -/
def lunchSlot : Slot := ⟨"lunch", "Mittagessen", "13:00", 120⟩

/-- The default quiet hours (`src/server/index.js:106`). -/
def testQuiet : QuietHours := ⟨"22:00", "07:00"⟩

/-- A concrete settings document with the default interval and quiet hours. -/
def testSettings : Settings := ⟨some 20, testQuiet, [lunchSlot]⟩

/-- A concrete tick environment: 13:05 local time on 2026-10-11, nothing
checked in, empty debounce state, one subscription. -/
def testCfg : NagCfg :=
  { vapid := true
    settings := testSettings
    targets := [("protein_servings", 3)]
    nowMinutes := 785
    nowMs := 1700000000000
    today := "2026-10-11"
    checkins := some (fun _ => false)
    consumed := some []
    nagState := fun _ => none
    subs := ["a"] }

/-- Fixture `testCfg` at 23:00, inside the default quiet hours. -/
def quietCfg : NagCfg := { testCfg with nowMinutes := 1380 }

/-- Fixture `testCfg` with the lunch slot already checked in. -/
def checkedCfg : NagCfg := { testCfg with checkins := some (fun s => s == "lunch") }

/-- A transport whose every delivery fulfills. -/
def okTransport : Nat → List Outcome := fun _ => [.fulfilled]

/-- An empty initial tick state over `testCfg`'s stores. -/
def testTickState : TickState := ⟨[], fun _ => none, ["a"], 0⟩

/-! ### Helper lemmas -/

theorem jsOrZeroOpt_eq_getD (o : Option Int) : jsOrZeroOpt o = o.getD 0 := by
  cases o with
  | none => rfl
  | some v =>
    simp only [jsOrZeroOpt, Option.getD_some]
    split <;> omega

theorem jsOrZero_eq (n : Int) : jsOrZero n = n := by
  unfold jsOrZero
  split <;> omega

theorem lookup_calcRemaining (t c : List (String × Int)) (k : String) :
    List.lookup k (calcRemaining t c) =
      (List.lookup k t).map (fun v => max 0 (v - (List.lookup k c).getD 0)) := by
  induction t with
  | nil => simp [calcRemaining]
  | cons p ts ih =>
    obtain ⟨a, v⟩ := p
    by_cases h : k = a
    · subst h
      simp [calcRemaining, List.lookup, jsOrZeroOpt_eq_getD]
    · have hb : (k == a) = false := by simp [h]
      simpa [calcRemaining, List.lookup, hb] using ih

theorem lookup_append {α β : Type} [BEq α] (l1 l2 : List (α × β)) (k : α) :
    List.lookup k (l1 ++ l2) =
      match List.lookup k l1 with
      | some v => some v
      | none => List.lookup k l2 := by
  induction l1 with
  | nil => simp
  | cons p t ih =>
    obtain ⟨a, v⟩ := p
    cases hb : k == a <;> simp [List.lookup, hb, ih]

theorem lookup_map_keyed (g : String → JSVal → JSVal) (a : JSObj) (k : String) :
    List.lookup k (a.map (fun p => (p.1, g p.1 p.2))) =
      (List.lookup k a).map (g k) := by
  induction a with
  | nil => simp
  | cons q t ih =>
    obtain ⟨x, v⟩ := q
    by_cases h : k = x
    · subst h
      simp [List.lookup]
    · have hb : (k == x) = false := by simp [h]
      simp [List.lookup, hb, ih]

theorem lookup_filter_key {β : Type} (pred : String → Bool) (l : List (String × β)) (k : String) :
    List.lookup k (l.filter (fun p => pred p.1)) =
      if pred k then List.lookup k l else none := by
  induction l with
  | nil => simp
  | cons q t ih =>
    obtain ⟨x, v⟩ := q
    by_cases h : k = x
    · subst h
      cases hp : pred k <;> simp [List.filter_cons, List.lookup, hp, ih]
    · have hb : (k == x) = false := by simp [h]
      cases hp : pred x <;> simp [List.filter_cons, List.lookup, hb, hp, ih]

theorem lookup_jsMerge (a b : JSObj) (k : String) :
    List.lookup k (jsMerge a b) =
      match List.lookup k a with
      | some v => some ((List.lookup k b).getD v)
      | none => List.lookup k b := by
  unfold jsMerge
  rw [lookup_append]
  rw [lookup_map_keyed (fun x v => (List.lookup x b).getD v)]
  rw [lookup_filter_key (fun x => (List.lookup x a).isNone)]
  cases hla : List.lookup k a <;> simp [hla]

theorem zip_pair_unique {α β : Type} {a : α} : ∀ (l : List α) (r : List β), l.Nodup →
    ∀ {b1 b2 : β}, (a, b1) ∈ l.zip r → (a, b2) ∈ l.zip r → b1 = b2 := by
  intro l
  induction l with
  | nil => intro r _ b1 b2 h1; simp at h1
  | cons x t ih =>
    intro r hnd b1 b2 h1 h2
    cases r with
    | nil => simp at h1
    | cons y s =>
      simp only [List.zip_cons_cons, List.mem_cons] at h1 h2
      rcases h1 with h1 | h1 <;> rcases h2 with h2 | h2
      · rw [Prod.mk.injEq] at h1 h2
        rw [h1.2, h2.2]
      · exfalso
        rw [Prod.mk.injEq] at h1
        have hat : a ∈ t := (List.of_mem_zip h2).1
        rw [← h1.1] at hnd
        exact (List.nodup_cons.mp hnd).1 hat
      · exfalso
        rw [Prod.mk.injEq] at h2
        have hat : a ∈ t := (List.of_mem_zip h1).1
        rw [← h2.1] at hnd
        exact (List.nodup_cons.mp hnd).1 hat
      · exact ih s (List.Nodup.of_cons hnd) h1 h2

theorem zip_filter_snd_length {α β : Type} (q : β → Bool) :
    ∀ (l : List α) (r : List β), r.length = l.length →
      ((l.zip r).filter (fun p => q p.2)).length = (r.filter q).length := by
  intro l
  induction l with
  | nil =>
    intro r hlen
    rw [List.length_nil, List.length_eq_zero] at hlen
    subst hlen
    simp
  | cons x t ih =>
    intro r hlen
    cases r with
    | nil => simp at hlen
    | cons y s =>
      simp only [List.length_cons, Nat.succ.injEq] at hlen
      cases hy : q y <;>
        simp [List.zip_cons_cons, List.filter_cons, hy, ih s hlen]

theorem mem_dispatched_foldl (cfg : NagCfg) (transport : Nat → List Outcome)
    (remaining : List (String × Int)) :
    ∀ (meals : List Slot) (st : TickState) (d : Dispatch),
      d ∈ (meals.foldl (nagSlotStep cfg transport remaining) st).dispatched →
      d ∈ st.dispatched ∨
        (d.slot ∈ meals ∧ slotWindowSkip cfg.nowMinutes d.slot = false ∧
          checkedIn cfg.checkins d.slot.id = false ∧
          d.payload = buildNagPayload d.slot remaining) := by
  intro meals
  induction meals with
  | nil =>
    intro st d hd
    exact Or.inl hd
  | cons slot rest ih =>
    intro st d hd
    rw [List.foldl_cons] at hd
    rcases ih (nagSlotStep cfg transport remaining st slot) d hd with h | h
    · by_cases h1 : slotWindowSkip cfg.nowMinutes slot = true
      · rw [nagSlotStep, if_pos h1] at h
        exact Or.inl h
      · rw [Bool.not_eq_true] at h1
        by_cases h2 : checkedIn cfg.checkins slot.id = true
        · rw [nagSlotStep, if_neg (by simp [h1]), if_pos h2] at h
          exact Or.inl h
        · rw [Bool.not_eq_true] at h2
          by_cases h3 : debounceSkip st.nagState (cfg.today ++ "-" ++ slot.id)
              cfg.settings.intervalMinutes cfg.nowMs = true
          · rw [nagSlotStep, if_neg (by simp [h1]), if_neg (by simp [h2]), if_pos h3] at h
            exact Or.inl h
          · rw [Bool.not_eq_true] at h3
            rw [nagSlotStep, if_neg (by simp [h1]), if_neg (by simp [h2]),
              if_neg (by simp [h3])] at h
            simp only [List.mem_append, List.mem_singleton] at h
            rcases h with h | h
            · exact Or.inl h
            · subst h
              exact Or.inr ⟨List.mem_cons_self _ _, h1, h2, rfl⟩
    · exact Or.inr ⟨List.mem_cons_of_mem _ h.1, h.2.1, h.2.2.1, h.2.2.2⟩

theorem jsMerge_base_filter (s : JSObj) :
    (jsMerge summaryBase s).filter (fun p => (List.lookup p.1 summaryBase).isNone) =
      s.filter (fun p => (List.lookup p.1 summaryBase).isNone) := by
  show (List.map _ summaryBase ++ _).filter _ = _
  rw [List.filter_append]
  have h1 : (summaryBase.map
      (fun p => (p.1, (List.lookup p.1 s).getD p.2))).filter
        (fun p => (List.lookup p.1 summaryBase).isNone) = [] := by
    simp [summaryBase, List.filter_cons, List.lookup]
  have h2 : (s.filter (fun p => (List.lookup p.1 summaryBase).isNone)).filter
      (fun p => (List.lookup p.1 summaryBase).isNone) =
        s.filter (fun p => (List.lookup p.1 summaryBase).isNone) := by
    rw [List.filter_filter]
    simp [Bool.and_self]
  rw [h1, h2, List.nil_append]

theorem jsMerge_base_map (s : JSObj) :
    summaryBase.map (fun p => (p.1, (List.lookup p.1 (jsMerge summaryBase s)).getD p.2)) =
      summaryBase.map (fun p => (p.1, (List.lookup p.1 s).getD p.2)) := by
  simp only [summaryBase, List.map_cons, List.map_nil, List.cons.injEq, Prod.mk.injEq,
    and_true, true_and]
  refine ⟨?_, ?_, ?_, ?_, ?_⟩ <;>
    · rw [lookup_jsMerge]
      simp [summaryBase, List.lookup]

/-! ### Claim theorems -/

/-- C2: for every minute-of-day value `now` and quiet-hours setting: if the
parsed start equals the parsed end, `isWithinQuietHours` returns false; if
start < end it returns true exactly on the half-open same-day interval
`start <= now < end`; if start > end (midnight wraparound) it returns true
exactly when `now >= start` or `now < end`. -/
theorem C2_quiet_hours_cases (now : Int) (q : QuietHours) :
    (timeToMinutes q.start = timeToMinutes q.«end» → isWithinQuietHours now q = false) ∧
    (∀ a b : Int, timeToMinutes q.start = .num a → timeToMinutes q.«end» = .num b →
      a < b → (isWithinQuietHours now q = true ↔ a ≤ now ∧ now < b)) ∧
    (∀ a b : Int, timeToMinutes q.start = .num a → timeToMinutes q.«end» = .num b →
      b < a → (isWithinQuietHours now q = true ↔ a ≤ now ∨ now < b)) := by
  refine ⟨?_, ?_, ?_⟩
  · intro h
    cases hs : timeToMinutes q.start with
    | nan =>
      rw [hs] at h
      cases he : timeToMinutes q.«end» with
      | nan => simp [isWithinQuietHours, hs, he, JSNum.seq, JSNum.lt, JSNum.ge]
      | num b => exact absurd h (by simp [he])
    | num a =>
      rw [hs] at h
      cases he : timeToMinutes q.«end» with
      | nan => exact absurd h (by simp [he])
      | num b =>
        rw [he] at h
        have hab : a = b := by injection h
        subst hab
        simp [isWithinQuietHours, hs, he, JSNum.seq]
  · intro a b hs he hab
    have hne : ¬(a = b) := by omega
    simp [isWithinQuietHours, hs, he, JSNum.seq, JSNum.lt, JSNum.ge, hne, hab]
  · intro a b hs he hba
    have hne : ¬(a = b) := by omega
    have hnlt : ¬(a < b) := by omega
    simp [isWithinQuietHours, hs, he, JSNum.seq, JSNum.lt, JSNum.ge, hne, hnlt]

/-- Witness for C2 at the default quiet hours 22:00–07:00 and 23:00 local
time. -/
theorem C2_witness :
    timeToMinutes testQuiet.start = JSNum.num 1320 ∧
    timeToMinutes testQuiet.«end» = JSNum.num 420 ∧
    (isWithinQuietHours 1380 testQuiet = true ↔ (1320 : Int) ≤ 1380 ∨ (1380 : Int) < 420) :=
  ⟨by decide, by decide,
    (C2_quiet_hours_cases 1380 testQuiet).2.2 1320 420 (by decide) (by decide) (by decide)⟩

/-- C6: `calcRemaining` produces exactly the keys of `targets`; each value is
`max 0 (targets[k] - (consumed[k] or 0))` (a key missing from `consumed`
counts as 0); and no value is negative.  Keys absent from `targets` never
appear (the key list equality), and the function is pure by construction. -/
theorem C6_calcRemaining_spec (targets consumed : List (String × Int)) :
    (calcRemaining targets consumed).map Prod.fst = targets.map Prod.fst ∧
    (∀ k : String, List.lookup k (calcRemaining targets consumed) =
      (List.lookup k targets).map (fun v => max 0 (v - (List.lookup k consumed).getD 0))) ∧
    (∀ p ∈ calcRemaining targets consumed, 0 ≤ p.2) := by
  refine ⟨?_, fun k => lookup_calcRemaining targets consumed k, ?_⟩
  · simp [calcRemaining]
  · intro p hp
    simp only [calcRemaining, List.mem_map] at hp
    obtain ⟨q, _, rfl⟩ := hp
    exact le_max_left 0 _

/-- Witness for C6 at the spec's worked example
`remaining({protein_servings: 3}, {protein_servings: 5})`. -/
theorem C6_witness :
    ("protein_servings", (0 : Int)) ∈ calcRemaining [("protein_servings", 3)] [("protein_servings", 5)] ∧
    (0 : Int) ≤ ("protein_servings", (0 : Int)).2 :=
  ⟨by decide,
    (C6_calcRemaining_spec [("protein_servings", 3)] [("protein_servings", 5)]).2.2
      ("protein_servings", (0 : Int)) (by decide)⟩

/-- C9 counterexample: the claim says malformed input fails with a
`ParseError`, but `timeToMinutes` never throws: on non-"HH:MM" strings every
branch still returns a value, namely the number `NaN` (`Number("ab")` is
`NaN`, and a missing ":" leaves `m` as `undefined`, so `h * 60 + m` is
`NaN`). -/
theorem C9_counterexample :
    timeToMinutes "ab" = JSNum.nan ∧ timeToMinutes "12" = JSNum.nan := by
  refine ⟨by decide, by decide⟩

/-- C9 amended: `timeToMinutes` parses a well-formed "HH:MM" string into the
integer `h * 60 + m`; on malformed input it does not fail — it returns the
`NaN` number value. -/
theorem C9_timeToMinutes_amended :
    (∀ h : Nat, h < 24 → ∀ m : Nat, m < 60 →
      timeToMinutes (hhmmString h m) = JSNum.num (h * 60 + m)) ∧
    timeToMinutes "ab" = JSNum.nan ∧
    timeToMinutes "" = JSNum.nan ∧
    timeToMinutes "12:xy" = JSNum.nan := by
  refine ⟨by decide, by decide, by decide, by decide⟩

/-- Witness for C9's amended claim at "09:30". -/
theorem C9_witness :
    (9 : Nat) < 24 ∧ (30 : Nat) < 60 ∧
    timeToMinutes (hhmmString 9 30) = JSNum.num (9 * 60 + 30) :=
  ⟨by decide, by decide, C9_timeToMinutes_amended.1 9 (by decide) 30 (by decide)⟩

/-- C10: `normalizeSummary` merges the five all-zero base fields with the
input, input values taking precedence unchanged (so extra keys are preserved
and negative or non-numeric values pass through without validation);
`normalizeSummary({})` is the all-zero record, and the function is
idempotent. -/
theorem C10_normalizeSummary_spec :
    normalizeSummary [] = summaryBase ∧
    (∀ (s : JSObj) (k : String),
      List.lookup k (normalizeSummary s) =
        match List.lookup k s with
        | some v => some v
        | none => List.lookup k summaryBase) ∧
    (∀ s : JSObj, normalizeSummary (normalizeSummary s) = normalizeSummary s) := by
  refine ⟨by decide, ?_, ?_⟩
  · intro s k
    rw [normalizeSummary, lookup_jsMerge]
    cases hls : List.lookup k s <;> cases hlb : List.lookup k summaryBase <;> simp [hls, hlb]
  · intro s
    show jsMerge summaryBase (jsMerge summaryBase s) = jsMerge summaryBase s
    have hdef : jsMerge summaryBase (jsMerge summaryBase s) =
        summaryBase.map
          (fun p => (p.1, (List.lookup p.1 (jsMerge summaryBase s)).getD p.2)) ++
          (jsMerge summaryBase s).filter (fun p => (List.lookup p.1 summaryBase).isNone) := rfl
    rw [hdef, jsMerge_base_map, jsMerge_base_filter]
    rfl

/-- C8: the invariant "`consumed` equals the field-wise sum of all
`entries[*].summary`" holds for the blank log `ensureLog` creates and is
preserved by the log-meal accumulation (which adds the normalized delta into
`consumed` and appends an entry carrying that same delta) and by check-in
(which touches only `checkins`). -/
theorem C8_log_invariant :
    (∀ d : String, LogInv (blankLog d)) ∧
    (∀ (store : String → Option DayLog) (d : String), store d = none →
      LogInv (ensureLog store d)) ∧
    (∀ (log : DayLog) (s : Summary) (items : List String) (t : String),
      LogInv log → LogInv (logMeal log s items t)) ∧
    (∀ (log : DayLog) (sid : String), LogInv log → LogInv (checkin log sid)) := by
  refine ⟨?_, ?_, ?_, ?_⟩
  · intro d
    rfl
  · intro store d hd
    simp only [ensureLog, hd, Option.getD_none]
    rfl
  · intro log s items t h
    unfold LogInv at *
    unfold logMeal
    simp only [entriesTotal] at *
    rw [List.foldl_append, ← h]
    simp [addConsumed, sumSummary, jsOrZero_eq, List.foldl]
  · intro log sid h
    exact h

/-- Witness for C8: the invariant after logging one meal onto the blank
log. -/
theorem C8_witness :
    LogInv (blankLog "2026-10-11") ∧
    LogInv (logMeal (blankLog "2026-10-11") ⟨1, 2, 3, 4, 500⟩ ["x"] "t") ∧
    LogInv (checkin (blankLog "2026-10-11") "lunch") :=
  ⟨C8_log_invariant.1 "2026-10-11",
    C8_log_invariant.2.2.1 (blankLog "2026-10-11") ⟨1, 2, 3, 4, 500⟩ ["x"] "t"
      (C8_log_invariant.1 "2026-10-11"),
    C8_log_invariant.2.2.2 (blankLog "2026-10-11") "lunch"
      (C8_log_invariant.1 "2026-10-11")⟩

/-- C7 counterexample: in the file-backed variant (`src/server/index.js:140`)
a subscription whose delivery fails with a transient error (statusCode 500,
not gone-class) is nevertheless dropped from the saved subscription list,
contradicting the claim that only gone/not-found-class failures are
removed. -/
theorem C7_counterexample :
    isGoneStatus (.rejected (some 500)) = false ∧
    (sendPushToAll ["a", "b", "c"]
      [.fulfilled, .rejected (some 500), .fulfilled]).1 = ["a", "c"] := by
  refine ⟨by decide, by decide⟩

/-- C7 amended: with an empty subscription set both variants return `sent = 0`
with no error and leave the store untouched; delivery outcomes are settled
independently per subscription; in the Firestore variant
(`src/functions/index.js:168`) exactly the gone-class (404/410) failures are
removed and every other subscription is retained, while in the file-backed
server variant any failed delivery removes the subscription; both variants
report `sent` as the number of fulfilled deliveries; and in the
3-subscription scenario with one gone-class failure both variants end with 2
members and report `sent == 2`. -/
theorem C7_dispatch_spec :
    (∀ results : List Outcome,
      sendPushToAll [] results = ([], 0) ∧ sendPushToAllFirestore [] results = ([], 0)) ∧
    (∀ (subs : List String) (results : List Outcome),
      results.length = subs.length → subs.Nodup →
      ∀ s o, (s, o) ∈ subs.zip results →
        ((s ∈ (sendPushToAllFirestore subs results).1 ↔ isGoneStatus o = false) ∧
          (s ∈ (sendPushToAll subs results).1 ↔ Outcome.ok o = true))) ∧
    (∀ (subs : List String) (results : List Outcome), results.length = subs.length →
      (sendPushToAllFirestore subs results).2 = (results.filter Outcome.ok).length ∧
      (sendPushToAll subs results).2 = (results.filter Outcome.ok).length) ∧
    sendPushToAllFirestore ["a", "b", "c"]
      [.fulfilled, .rejected (some 410), .fulfilled] = (["a", "c"], 2) ∧
    sendPushToAll ["a", "b", "c"]
      [.fulfilled, .rejected (some 410), .fulfilled] = (["a", "c"], 2) := by
  refine ⟨?_, ?_, ?_, by decide, by decide⟩
  · intro results
    refine ⟨rfl, rfl⟩
  · intro subs results hlen hnd s o hmem
    cases subs with
    | nil => simp at hmem
    | cons x t =>
      have hne : ((x :: t) : List String).isEmpty = false := rfl
      constructor
      · rw [sendPushToAllFirestore]
        simp only [hne, Bool.false_eq_true, if_false]
        simp only [List.mem_map, List.mem_filter]
        constructor
        · rintro ⟨⟨s', o'⟩, ⟨hmem', hpred⟩, hfst⟩
          dsimp at hfst hpred
          subst hfst
          have := zip_pair_unique (x :: t) results hnd hmem' hmem
          rw [this] at hpred
          simpa using hpred
        · intro hng
          exact ⟨(s, o), ⟨hmem, by simpa using hng⟩, rfl⟩
      · rw [sendPushToAll]
        simp only [hne, Bool.false_eq_true, if_false]
        simp only [List.mem_map, List.mem_filter]
        constructor
        · rintro ⟨⟨s', o'⟩, ⟨hmem', hpred⟩, hfst⟩
          dsimp at hfst hpred
          subst hfst
          have := zip_pair_unique (x :: t) results hnd hmem' hmem
          rw [this] at hpred
          exact hpred
        · intro hok
          exact ⟨(s, o), ⟨hmem, hok⟩, rfl⟩
  · intro subs results hlen
    have hcount := zip_filter_snd_length Outcome.ok subs results hlen
    cases subs with
    | nil =>
      rw [List.length_nil, List.length_eq_zero] at hlen
      subst hlen
      exact ⟨rfl, rfl⟩
    | cons x t =>
      have hne : ((x :: t) : List String).isEmpty = false := rfl
      constructor
      · rw [sendPushToAllFirestore]
        simp only [hne, Bool.false_eq_true, if_false]
        exact hcount
      · rw [sendPushToAll]
        simp only [hne, Bool.false_eq_true, if_false]
        rw [List.length_map]
        exact hcount

/-- Witness for C7's amended claim: a transiently failing subscription is
retained by the Firestore variant and dropped by the server variant. -/
theorem C7_witness :
    (("b", Outcome.rejected none) ∈ (["a", "b"] : List String).zip
        [Outcome.fulfilled, Outcome.rejected none]) ∧
    ("b" ∈ (sendPushToAllFirestore ["a", "b"] [.fulfilled, .rejected none]).1 ↔
      isGoneStatus (.rejected none) = false) ∧
    ("b" ∈ (sendPushToAll ["a", "b"] [.fulfilled, .rejected none]).1 ↔
      Outcome.ok (.rejected none) = true) :=
  ⟨by decide,
    (C7_dispatch_spec.2.1 ["a", "b"] [.fulfilled, .rejected none]
      (by decide) (by decide) "b" (.rejected none) (by decide)).1,
    (C7_dispatch_spec.2.1 ["a", "b"] [.fulfilled, .rejected none]
      (by decide) (by decide) "b" (.rejected none) (by decide)).2⟩

/-- C3: whenever the tick's minute-of-day falls within quiet hours, the whole
`handleNagCheck` tick is a no-op past the quiet-hours check: no slot is
dispatched, the debounce state is untouched, and so is the subscription
store — for every settings, targets, log, subscription set, debounce state
and transport behaviour. -/
theorem C3_quiet_tick_noop (cfg : NagCfg) (transport : Nat → List Outcome)
    (hq : isWithinQuietHours cfg.nowMinutes cfg.settings.quietHours = true) :
    (handleNagCheck cfg transport).dispatched = [] ∧
    (handleNagCheck cfg transport).nagState = cfg.nagState ∧
    (handleNagCheck cfg transport).subs = cfg.subs := by
  unfold handleNagCheck
  cases hv : cfg.vapid <;> simp [hq, hv]

/-- Witness for C3: a tick at 23:00 under the default 22:00–07:00 quiet
hours. -/
theorem C3_witness :
    isWithinQuietHours quietCfg.nowMinutes quietCfg.settings.quietHours = true ∧
    ((handleNagCheck quietCfg okTransport).dispatched = [] ∧
      (handleNagCheck quietCfg okTransport).nagState = quietCfg.nagState ∧
      (handleNagCheck quietCfg okTransport).subs = quietCfg.subs) :=
  ⟨by decide, C3_quiet_tick_noop quietCfg okTransport (by decide)⟩

/-- C5: once the daily log records `checkins[sid] = true`, no `handleNagCheck`
tick dispatches a reminder for a slot with that id — at any time, for any
settings, debounce state and transport: the checked-in state is terminal for
the (date, slot) pair. -/
theorem C5_checkedin_no_dispatch (cfg : NagCfg) (transport : Nat → List Outcome)
    (sid : String) (h : checkedIn cfg.checkins sid = true) :
    ∀ d ∈ (handleNagCheck cfg transport).dispatched, d.slot.id ≠ sid := by
  intro d hd heq
  unfold handleNagCheck at hd
  by_cases hv : cfg.vapid = true
  · by_cases hq : isWithinQuietHours cfg.nowMinutes cfg.settings.quietHours = true
    · simp [hv, hq] at hd
    · simp only [hv, Bool.not_true, Bool.false_eq_true, if_false,
        Bool.not_eq_true] at hd hq
      rw [hq] at hd
      simp only [Bool.false_eq_true, if_false] at hd
      rcases mem_dispatched_foldl cfg transport _ cfg.settings.meals _ d hd with h0 | h0
      · simp at h0
      · rw [heq, h] at h0
        simp at h0
  · simp only [Bool.not_eq_true] at hv
    rw [hv] at hd
    simp at hd

/-- Witness for C5: with lunch checked in at 13:05, the tick dispatches
nothing tagged for the lunch slot. -/
theorem C5_witness :
    checkedIn checkedCfg.checkins "lunch" = true ∧
    ∀ d ∈ (handleNagCheck checkedCfg okTransport).dispatched, d.slot.id ≠ "lunch" :=
  ⟨by decide, C5_checkedin_no_dispatch checkedCfg okTransport "lunch" (by decide)⟩

/-- C4: a slot can be dispatched only with
`slotStart <= nowMinutes <= slotStart + windowMinutes` (for every slot whose
time parses to minutes `s`); the window test treats both boundary minutes as
eligible (it does not skip at `now = slotStart` nor at `now = slotEnd`, for
any non-negative window); and a tick strictly before the start or strictly
after the end leaves the slot evaluation a complete no-op. -/
theorem C4_slot_window_spec (cfg : NagCfg) (transport : Nat → List Outcome) :
    (∀ d ∈ (handleNagCheck cfg transport).dispatched, ∀ s : Int,
      timeToMinutes d.slot.time = .num s →
      s ≤ cfg.nowMinutes ∧ cfg.nowMinutes ≤ s + d.slot.windowMinutes) ∧
    (∀ (slot : Slot) (s : Int), timeToMinutes slot.time = .num s →
      0 ≤ slot.windowMinutes →
      slotWindowSkip s slot = false ∧
      slotWindowSkip (s + slot.windowMinutes) slot = false) ∧
    (∀ (slot : Slot) (s : Int) (remaining : List (String × Int)) (st : TickState),
      timeToMinutes slot.time = .num s →
      (cfg.nowMinutes < s ∨ s + slot.windowMinutes < cfg.nowMinutes) →
      nagSlotStep cfg transport remaining st slot = st) := by
  refine ⟨?_, ?_, ?_⟩
  · intro d hd s hs
    unfold handleNagCheck at hd
    by_cases hv : cfg.vapid = true
    · by_cases hq : isWithinQuietHours cfg.nowMinutes cfg.settings.quietHours = true
      · simp [hv, hq] at hd
      · simp only [hv, Bool.not_true, Bool.false_eq_true, if_false,
          Bool.not_eq_true] at hd hq
        rw [hq] at hd
        simp only [Bool.false_eq_true, if_false] at hd
        rcases mem_dispatched_foldl cfg transport _ cfg.settings.meals _ d hd with h0 | h0
        · simp at h0
        · have hw := h0.2.1
          rw [slotWindowSkip] at hw
          simp only [hs, JSNum.add, JSNum.lt, JSNum.gt, Bool.or_eq_false_iff,
            decide_eq_false_iff_not] at hw
          omega
    · simp only [Bool.not_eq_true] at hv
      rw [hv] at hd
      simp at hd
  · intro slot s hs hwm
    rw [slotWindowSkip, slotWindowSkip]
    simp only [hs, JSNum.add, JSNum.lt, JSNum.gt, Bool.or_eq_false_iff,
      decide_eq_false_iff_not]
    omega
  · intro slot s remaining st hs hout
    have hskip : slotWindowSkip cfg.nowMinutes slot = true := by
      rw [slotWindowSkip]
      simp only [hs, JSNum.add, JSNum.lt, JSNum.gt, Bool.or_eq_true, decide_eq_true_eq]
      omega
    rw [nagSlotStep, if_pos hskip]

/-- Witness for C4: the lunch slot's window test at its two boundary minutes
(13:00 and 15:00). -/
theorem C4_witness :
    timeToMinutes lunchSlot.time = JSNum.num 780 ∧
    0 ≤ lunchSlot.windowMinutes ∧
    (slotWindowSkip 780 lunchSlot = false ∧
      slotWindowSkip (780 + lunchSlot.windowMinutes) lunchSlot = false) :=
  ⟨by decide, by decide,
    (C4_slot_window_spec testCfg okTransport).2.1 lunchSlot 780 (by decide) (by decide)⟩

/-- C1: for a slot that has passed the window and check-in tests, the
debounce rule of `src/server/index.js:191-197` skips dispatch exactly when
`Date.now() - lastSent` is below `intervalMinutes` minutes (with recorded
`lastSent`); a key with no recorded send is not skipped (the server variant
stores `lastSent = 0`, so this needs the clock to read at least
`intervalMinutes` past the epoch — always true in practice — while the
Firestore variant's `lastSent &&` guard, last conjunct, never skips a fresh
key unconditionally); and whenever the slot is dispatched the new debounce
state maps its key to the current time — for every transport behaviour, i.e.
regardless of dispatch success or failure. -/
theorem C1_debounce_spec (cfg : NagCfg) (transport : Nat → List Outcome)
    (remaining : List (String × Int)) (st : TickState) (slot : Slot)
    (hw : slotWindowSkip cfg.nowMinutes slot = false)
    (hc : checkedIn cfg.checkins slot.id = false) :
    (∀ ls : Int, st.nagState (cfg.today ++ "-" ++ slot.id) = some ls →
      ((nagSlotStep cfg transport remaining st slot).dispatched = st.dispatched ↔
        cfg.nowMs - ls < intervalOr cfg.settings.intervalMinutes * 60 * 1000)) ∧
    (st.nagState (cfg.today ++ "-" ++ slot.id) = none →
      intervalOr cfg.settings.intervalMinutes * 60 * 1000 ≤ cfg.nowMs →
      (nagSlotStep cfg transport remaining st slot).dispatched =
        st.dispatched ++ [⟨slot, buildNagPayload slot remaining⟩]) ∧
    ((nagSlotStep cfg transport remaining st slot).dispatched ≠ st.dispatched →
      (nagSlotStep cfg transport remaining st slot).nagState
        (cfg.today ++ "-" ++ slot.id) = some cfg.nowMs) ∧
    (∀ (i : Option Int) (ms : Int), debounceSkipFirestore none i ms = false) := by
  have happ : ∀ x : Dispatch, st.dispatched ++ [x] ≠ st.dispatched := by
    intro x hx
    have := congrArg List.length hx
    simp at this
  refine ⟨?_, ?_, ?_, ?_⟩
  · intro ls hls
    by_cases hd : debounceSkip st.nagState (cfg.today ++ "-" ++ slot.id)
        cfg.settings.intervalMinutes cfg.nowMs = true
    · rw [nagSlotStep, if_neg (by simp [hw]), if_neg (by simp [hc]), if_pos hd]
      rw [debounceSkip] at hd
      simp only [hls, Option.getD_some, decide_eq_true_eq] at hd
      simpa using hd
    · rw [Bool.not_eq_true] at hd
      rw [nagSlotStep, if_neg (by simp [hw]), if_neg (by simp [hc]), if_neg (by simp [hd])]
      rw [debounceSkip] at hd
      simp only [hls, Option.getD_some, decide_eq_false_iff_not] at hd
      simp only [happ, false_iff]
      exact hd
  · intro hnone hreal
    have hd : debounceSkip st.nagState (cfg.today ++ "-" ++ slot.id)
        cfg.settings.intervalMinutes cfg.nowMs = false := by
      rw [debounceSkip]
      simp only [hnone, Option.getD_none, decide_eq_false_iff_not]
      omega
    rw [nagSlotStep, if_neg (by simp [hw]), if_neg (by simp [hc]), if_neg (by simp [hd])]
  · intro hne
    by_cases hd : debounceSkip st.nagState (cfg.today ++ "-" ++ slot.id)
        cfg.settings.intervalMinutes cfg.nowMs = true
    · exfalso
      apply hne
      rw [nagSlotStep, if_neg (by simp [hw]), if_neg (by simp [hc]), if_pos hd]
    · rw [Bool.not_eq_true] at hd
      rw [nagSlotStep, if_neg (by simp [hw]), if_neg (by simp [hc]), if_neg (by simp [hd])]
      simp
  · intro i ms
    rw [debounceSkipFirestore]
    simp

/-- Witness for C1: at 13:05 with an empty debounce state and the default
20-minute interval, the lunch slot dispatches and is recorded. -/
theorem C1_witness :
    slotWindowSkip testCfg.nowMinutes lunchSlot = false ∧
    checkedIn testCfg.checkins lunchSlot.id = false ∧
    testTickState.nagState (testCfg.today ++ "-" ++ lunchSlot.id) = none ∧
    intervalOr testCfg.settings.intervalMinutes * 60 * 1000 ≤ testCfg.nowMs ∧
    (nagSlotStep testCfg okTransport [] testTickState lunchSlot).dispatched =
      testTickState.dispatched ++ [⟨lunchSlot, buildNagPayload lunchSlot []⟩] :=
  ⟨by decide, by decide, rfl, by decide,
    (C1_debounce_spec testCfg okTransport [] testTickState lunchSlot
      (by decide) (by decide)).2.1 rfl (by decide)⟩

end MealCoach
